import Mathlib

/-!
Shallow embedding of the PyDeck-CLI sources (`pydeckCLI.py`, `show_properties.py`)
and proofs of the specification claims about them.

Numeric coordinates that the Python code handles as floats are modelled as exact
rationals where the computation is purely order/field arithmetic (aggregation of
bounds and centroids), and as real numbers where the computation involves the
transcendental constants pi and log 2 (the zoom formula).  Python runtime errors
(ValueError from `min`/`max` on an empty sequence, ZeroDivisionError from `/`)
are modelled with `Except PyError`.
-/

namespace PyDeck

/-- Runtime errors the relevant Python code can raise: `ValueError` from
`min()`/`max()` on an empty sequence, `ZeroDivisionError` from division. -/
inductive PyError where
  | valueError
  | zeroDivisionError
deriving DecidableEq

/-- Python `min(sequence)`: raises `ValueError` on an empty sequence, otherwise
folds the binary minimum over the elements. -/
def pyMin {α : Type} [LinearOrder α] : List α → Except PyError α
  | [] => .error .valueError
  | x :: xs => .ok (xs.foldl min x)

/-- Python `max(sequence)`: raises `ValueError` on an empty sequence, otherwise
folds the binary maximum over the elements. -/
def pyMax {α : Type} [LinearOrder α] : List α → Except PyError α
  | [] => .error .valueError
  | x :: xs => .ok (xs.foldl max x)

/-- Python `sum(sequence)`: left fold of addition starting from 0. -/
def pySum (l : List ℚ) : ℚ := l.foldl (· + ·) 0

/-- Python division on numbers: raises `ZeroDivisionError` when the divisor is
zero, otherwise divides. -/
def pyDiv (a b : ℚ) : Except PyError ℚ :=
  if b = 0 then .error .zeroDivisionError else .ok (a / b)

/-- A parsed geometry, as `create_map` uses it: the code only reads
`geom.bounds` (a 4-tuple `(minx, miny, maxx, maxy)` supplied by the external
shapely library) and `geom.centroid` (a point, likewise external). -/
structure Geometry where
  bounds : ℚ × ℚ × ℚ × ℚ
  centroid : ℚ × ℚ
deriving DecidableEq

/-- Aggregation step of `create_map` (pydeckCLI.py lines 43-51): total bounding
box by `min`/`max` over the per-geometry bounds, centroid as the sum of the
per-geometry centroid coordinates divided by the length of the list. -/
def aggregate (gs : List Geometry) : Except PyError ((ℚ × ℚ × ℚ × ℚ) × (ℚ × ℚ)) := do
  let minx ← pyMin (gs.map fun g => g.bounds.1)
  let miny ← pyMin (gs.map fun g => g.bounds.2.1)
  let maxx ← pyMax (gs.map fun g => g.bounds.2.2.1)
  let maxy ← pyMax (gs.map fun g => g.bounds.2.2.2)
  let x ← pyDiv (pySum (gs.map fun g => g.centroid.1)) (gs.length : ℚ)
  let y ← pyDiv (pySum (gs.map fun g => g.centroid.2)) (gs.length : ℚ)
  return ((minx, miny, maxx, maxy), (x, y))

/-- Zoom computation `get_zoom_level` (pydeckCLI.py lines 8-22), over the reals:
destructure the bounds, form the spans, apply the logarithmic heuristic to each
axis and return the minimum.  Real division is total, so this version is the
mathematical value of the formula; `get_zoom_levelE` below tracks the Python
division errors. -/
noncomputable def get_zoom_level (bounds : ℝ × ℝ × ℝ × ℝ) (width height : ℝ) : ℝ :=
  let minx := bounds.1
  let miny := bounds.2.1
  let maxx := bounds.2.2.1
  let maxy := bounds.2.2.2
  let xdiff := maxx - minx
  let ydiff := maxy - miny
  let xzoom := -1 * (xdiff / width) / (2 * Real.pi) * 360 / Real.log 2
  let yzoom := -1 * (ydiff / height) / (2 * Real.pi) * 360 / Real.log 2
  min xzoom yzoom

/-- Python division on real operands, raising `ZeroDivisionError` on a zero
divisor. -/
noncomputable def pyDivR (a b : ℝ) : Except PyError ℝ :=
  if b = 0 then .error .zeroDivisionError else .ok (a / b)

/-- Error-tracking version of `get_zoom_level`: every `/` of the source is the
Python division `pyDivR`, in the evaluation order of the source expressions. -/
noncomputable def get_zoom_levelE (bounds : ℝ × ℝ × ℝ × ℝ) (width height : ℝ) :
    Except PyError ℝ := do
  let minx := bounds.1
  let miny := bounds.2.1
  let maxx := bounds.2.2.1
  let maxy := bounds.2.2.2
  let xdiff := maxx - minx
  let ydiff := maxy - miny
  let x1 ← pyDivR xdiff width
  let x2 ← pyDivR (-1 * x1) (2 * Real.pi)
  let xzoom ← pyDivR (x2 * 360) (Real.log 2)
  let y1 ← pyDivR ydiff height
  let y2 ← pyDivR (-1 * y1) (2 * Real.pi)
  let yzoom ← pyDivR (y2 * 360) (Real.log 2)
  return min xzoom yzoom

/-- The pydeck layer configuration assembled by `create_map` (pydeckCLI.py
lines 59-74).  The `data` keyword (the parsed JSON document) and the constant
`get_position` list are file contents handed to the external renderer and are
not relevant to any claim; the remaining keyword arguments are kept with the
types the CLI produces. -/
structure Layer where
  type : Option String
  get_elevation : String
  get_fill_color : List ℤ
  get_line_color : List ℤ
  auto_highlight : Bool
  elevation_scale : ℚ
  pickable : Bool
  elevation_range : List ℤ
  stroked : Bool
  filled : Bool
  wireframe : Bool
  extruded : Bool
  coverage : ℚ
deriving DecidableEq

/-- Layer assembly of `create_map`, as a function of the parameters in the
order of the function signature (pydeckCLI.py line 24): `(input_file,
layer_type, elevation_scale, fill_color, line_color, auto_highlight, pickable,
extruded, stroked, filled, wireframe, coverage, pitch, bearing, output_file,
elevation_property)`.  Each Layer field is set from the same-named parameter,
exactly as the keyword arguments at lines 59-74 do. -/
def createMapLayer (input_file : String) (layer_type : Option String)
    (elevation_scale : ℚ) (fill_color : List ℤ) (line_color : List ℤ)
    (auto_highlight : Bool) (pickable : Bool) (extruded : Bool) (stroked : Bool)
    (filled : Bool) (wireframe : Bool) (coverage : ℚ) (pitch : ℚ) (bearing : ℚ)
    (output_file : String) (elevation_property : String) : Layer :=
  { type := layer_type
    get_elevation := "properties." ++ elevation_property
    get_fill_color := fill_color
    get_line_color := line_color
    auto_highlight := auto_highlight
    elevation_scale := elevation_scale
    pickable := pickable
    elevation_range := [0, 3000]
    stroked := stroked
    filled := filled
    wireframe := wireframe
    extruded := extruded
    coverage := coverage }

/-- The parsed CLI arguments of pydeckCLI.py (lines 93-123), one field per
`add_argument` call. -/
structure Args where
  input_file : String
  elevation_property : String
  layer_type : Option String
  elevation_scale : ℚ
  fill_color : List ℤ
  line_color : List ℤ
  auto_highlight : Bool
  pickable : Bool
  stroked : Bool
  filled : Bool
  wireframe : Bool
  extruded : Bool
  coverage : ℚ
  pitch : ℚ
  bearing : ℚ
  output_file : String

/-- The `__main__` call site (pydeckCLI.py line 127): `create_map` applied to
the parsed arguments positionally, in the order written there —
`(args.input_file, args.layer_type, args.elevation_scale, args.fill_color,
args.line_color, args.auto_highlight, args.pickable, args.stroked, args.filled,
args.wireframe, args.extruded, args.coverage, args.pitch, args.bearing,
args.output_file, args.elevation_property)`. -/
def mainLayer (a : Args) : Layer :=
  createMapLayer a.input_file a.layer_type a.elevation_scale a.fill_color
    a.line_color a.auto_highlight a.pickable a.stroked a.filled a.wireframe
    a.extruded a.coverage a.pitch a.bearing a.output_file a.elevation_property

/-- A GeoJSON feature as show_properties.py reads it: only the property
mapping (string key, JSON value modelled as an integer for concreteness; the
code touches nothing but the keys). -/
structure Feature where
  properties : List (String × ℤ)
deriving DecidableEq

/-- Keys gathered across the features, in order of appearance with
duplicates, as `properties.update(feature[...].keys())` visits them
(show_properties.py lines 8-10). -/
def collectKeys : List Feature → List String
  | [] => []
  | f :: fs => (f.properties.map Prod.fst) ++ collectKeys fs

/-- The Python `set` of keys presented through `sorted(...)`
(show_properties.py line 12): duplicates collapsed, then sorted ascending by
the string order. -/
def sortedProps (features : List Feature) : List String :=
  List.insertionSort (· ≤ ·) (collectKeys features).dedup

/-- Output lines of `show_properties` (show_properties.py lines 11-13): the
header line, then one line per sorted key with the two-space-dash prefix. -/
def show_properties (features : List Feature) : List String :=
  "Available properties:" :: (sortedProps features).map (fun p => "  - " ++ p)

/-- The `__main__` block of show_properties.py (lines 21-22): calls
`show_properties` when the properties flag was given, otherwise does
nothing (prints no lines). -/
def mainOut (properties_flag : Bool) (features : List Feature) : List String :=
  if properties_flag then show_properties features else []

/-- Predicate: `m` is the minimum of the list `l` (a member that bounds every
member from below). -/
def isMinOf (m : ℚ) (l : List ℚ) : Prop := m ∈ l ∧ ∀ y ∈ l, m ≤ y

/-- Predicate: `m` is the maximum of the list `l` (a member that bounds every
member from above). -/
def isMaxOf (m : ℚ) (l : List ℚ) : Prop := m ∈ l ∧ ∀ y ∈ l, y ≤ m

/-- A concrete two-geometry input used to instantiate universally quantified
claims. -/
def sampleGeoms : List Geometry := [⟨(0, 1, 2, 3), (1, 2)⟩, ⟨(-1, 4, 5, 0), (3, 4)⟩]

/-- A concrete one-geometry input used to instantiate universally quantified
claims. -/
def sampleGeom1 : List Geometry := [⟨(2, 2, 2, 2), (2, 4)⟩]

/-- The data-dependent part of one `create_map` run (pydeckCLI.py lines
43-56): aggregate bounds and centroid, then the zoom at the fixed 500 x 500
surface of line 56. -/
noncomputable def pipeline (gs : List Geometry) :
    Except PyError ((ℚ × ℚ × ℚ × ℚ) × (ℚ × ℚ) × ℝ) := do
  let r ← aggregate gs
  let b := r.1
  return (r.1, r.2,
    get_zoom_level ((b.1 : ℝ), (b.2.1 : ℝ), (b.2.2.1 : ℝ), (b.2.2.2 : ℝ)) 500 500)

/-! ## Helper lemmas about the Python `min`/`max`/`sum` folds -/

theorem foldl_min_le_self {α : Type} [LinearOrder α] (xs : List α) (x : α) :
    xs.foldl min x ≤ x := by
  induction xs generalizing x with
  | nil => exact le_refl x
  | cons a as ih => exact le_trans (ih (min x a)) (min_le_left x a)

theorem foldl_min_le_mem {α : Type} [LinearOrder α] (xs : List α) (x y : α)
    (hy : y ∈ xs) : xs.foldl min x ≤ y := by
  induction xs generalizing x with
  | nil => cases hy
  | cons a as ih =>
    rcases List.mem_cons.mp hy with rfl | h
    · exact le_trans (foldl_min_le_self as (min x y)) (min_le_right x y)
    · exact ih (min x a) h

theorem foldl_min_mem {α : Type} [LinearOrder α] (xs : List α) (x : α) :
    xs.foldl min x ∈ x :: xs := by
  induction xs generalizing x with
  | nil => exact List.mem_singleton.mpr rfl
  | cons a as ih =>
    have h := ih (min x a)
    rcases List.mem_cons.mp h with h1 | h1
    · rcases min_choice x a with h2 | h2 <;> rw [List.foldl_cons, h1, h2]
      · exact List.mem_cons_self _ _
      · exact List.mem_cons_of_mem _ (List.mem_cons_self _ _)
    · exact List.mem_cons_of_mem _ (List.mem_cons_of_mem _ h1)

theorem foldl_max_le_self {α : Type} [LinearOrder α] (xs : List α) (x : α) :
    x ≤ xs.foldl max x := by
  induction xs generalizing x with
  | nil => exact le_refl x
  | cons a as ih => exact le_trans (le_max_left x a) (ih (max x a))

theorem foldl_max_le_mem {α : Type} [LinearOrder α] (xs : List α) (x y : α)
    (hy : y ∈ xs) : y ≤ xs.foldl max x := by
  induction xs generalizing x with
  | nil => cases hy
  | cons a as ih =>
    rcases List.mem_cons.mp hy with rfl | h
    · exact le_trans (le_max_right x y) (foldl_max_le_self as (max x y))
    · exact ih (max x a) h

theorem foldl_max_mem {α : Type} [LinearOrder α] (xs : List α) (x : α) :
    xs.foldl max x ∈ x :: xs := by
  induction xs generalizing x with
  | nil => exact List.mem_singleton.mpr rfl
  | cons a as ih =>
    have h := ih (max x a)
    rcases List.mem_cons.mp h with h1 | h1
    · rcases max_choice x a with h2 | h2 <;> rw [List.foldl_cons, h1, h2]
      · exact List.mem_cons_self _ _
      · exact List.mem_cons_of_mem _ (List.mem_cons_self _ _)
    · exact List.mem_cons_of_mem _ (List.mem_cons_of_mem _ h1)

theorem pyMin_ok {α : Type} [LinearOrder α] {l : List α} {m : α}
    (h : pyMin l = .ok m) : m ∈ l ∧ ∀ y ∈ l, m ≤ y := by
  cases l with
  | nil => exact absurd h (by simp [pyMin])
  | cons x xs =>
    have hm : xs.foldl min x = m := by
      have := h
      simp only [pyMin, Except.ok.injEq] at this
      exact this
    subst hm
    refine ⟨foldl_min_mem xs x, fun y hy => ?_⟩
    rcases List.mem_cons.mp hy with rfl | hmem
    · exact foldl_min_le_self xs y
    · exact foldl_min_le_mem xs x y hmem

theorem pyMax_ok {α : Type} [LinearOrder α] {l : List α} {m : α}
    (h : pyMax l = .ok m) : m ∈ l ∧ ∀ y ∈ l, y ≤ m := by
  cases l with
  | nil => exact absurd h (by simp [pyMax])
  | cons x xs =>
    have hm : xs.foldl max x = m := by
      have := h
      simp only [pyMax, Except.ok.injEq] at this
      exact this
    subst hm
    refine ⟨foldl_max_mem xs x, fun y hy => ?_⟩
    rcases List.mem_cons.mp hy with rfl | hmem
    · exact foldl_max_le_self xs y
    · exact foldl_max_le_mem xs x y hmem

theorem pyMin_ok_of_ne_nil {α : Type} [LinearOrder α] {l : List α} (h : l ≠ []) :
    ∃ m, pyMin l = .ok m := by
  cases l with
  | nil => exact absurd rfl h
  | cons x xs => exact ⟨xs.foldl min x, rfl⟩

theorem pyMax_ok_of_ne_nil {α : Type} [LinearOrder α] {l : List α} (h : l ≠ []) :
    ∃ m, pyMax l = .ok m := by
  cases l with
  | nil => exact absurd rfl h
  | cons x xs => exact ⟨xs.foldl max x, rfl⟩

theorem pyMin_perm {α : Type} [LinearOrder α] {l l' : List α} (p : l.Perm l') :
    pyMin l = pyMin l' := by
  cases l with
  | nil => rw [show l' = [] from p.symm.eq_nil]
  | cons x xs =>
    have hne : (x :: xs : List α) ≠ [] := by simp
    have hne' : l' ≠ [] := by
      intro h0
      rw [h0] at p
      exact hne p.eq_nil
    obtain ⟨m, hm⟩ := pyMin_ok_of_ne_nil hne
    obtain ⟨m', hm'⟩ := pyMin_ok_of_ne_nil hne'
    obtain ⟨hmem, hbound⟩ := pyMin_ok hm
    obtain ⟨hmem', hbound'⟩ := pyMin_ok hm'
    rw [hm, hm']
    have h1 : m ≤ m' := hbound m' (p.symm.subset hmem')
    have h2 : m' ≤ m := hbound' m (p.subset hmem)
    rw [le_antisymm h1 h2]

theorem pyMax_perm {α : Type} [LinearOrder α] {l l' : List α} (p : l.Perm l') :
    pyMax l = pyMax l' := by
  cases l with
  | nil => rw [show l' = [] from p.symm.eq_nil]
  | cons x xs =>
    have hne : (x :: xs : List α) ≠ [] := by simp
    have hne' : l' ≠ [] := by
      intro h0
      rw [h0] at p
      exact hne p.eq_nil
    obtain ⟨m, hm⟩ := pyMax_ok_of_ne_nil hne
    obtain ⟨m', hm'⟩ := pyMax_ok_of_ne_nil hne'
    obtain ⟨hmem, hbound⟩ := pyMax_ok hm
    obtain ⟨hmem', hbound'⟩ := pyMax_ok hm'
    rw [hm, hm']
    have h1 : m' ≤ m := hbound m' (p.symm.subset hmem')
    have h2 : m ≤ m' := hbound' m (p.subset hmem)
    rw [le_antisymm h2 h1]

theorem pySum_perm {l l' : List ℚ} (p : l.Perm l') : pySum l = pySum l' := by
  unfold pySum
  exact p.foldl_eq 0

theorem foldl_add_eq (a : ℚ) (l : List ℚ) : l.foldl (· + ·) a = a + l.sum := by
  induction l generalizing a with
  | nil => simp
  | cons x xs ih => simp [ih, add_assoc]

theorem pySum_eq_sum (l : List ℚ) : pySum l = l.sum := by
  unfold pySum
  rw [foldl_add_eq, zero_add]

/-! ## Structure of `aggregate` on a non-empty input -/

theorem aggregate_ok (gs : List Geometry) (hne : gs ≠ []) :
    ∃ mnx mny mxx mxy,
      pyMin (gs.map fun g => g.bounds.1) = .ok mnx ∧
      pyMin (gs.map fun g => g.bounds.2.1) = .ok mny ∧
      pyMax (gs.map fun g => g.bounds.2.2.1) = .ok mxx ∧
      pyMax (gs.map fun g => g.bounds.2.2.2) = .ok mxy ∧
      aggregate gs = .ok ((mnx, mny, mxx, mxy),
        (pySum (gs.map fun g => g.centroid.1) / (gs.length : ℚ),
         pySum (gs.map fun g => g.centroid.2) / (gs.length : ℚ))) := by
  have hmapne : ∀ f : Geometry → ℚ, gs.map f ≠ [] := by
    intro f h
    exact hne (List.map_eq_nil_iff.mp h)
  obtain ⟨mnx, h1⟩ := pyMin_ok_of_ne_nil (hmapne fun g => g.bounds.1)
  obtain ⟨mny, h2⟩ := pyMin_ok_of_ne_nil (hmapne fun g => g.bounds.2.1)
  obtain ⟨mxx, h3⟩ := pyMax_ok_of_ne_nil (hmapne fun g => g.bounds.2.2.1)
  obtain ⟨mxy, h4⟩ := pyMax_ok_of_ne_nil (hmapne fun g => g.bounds.2.2.2)
  have hlen : (gs.length : ℚ) ≠ 0 := by
    have : gs.length ≠ 0 := by
      intro h0
      exact hne (List.length_eq_zero.mp h0)
    exact_mod_cast this
  refine ⟨mnx, mny, mxx, mxy, h1, h2, h3, h4, ?_⟩
  simp only [aggregate, h1, h2, h3, h4, pyDiv, hlen, if_false, if_neg hlen]
  rfl

theorem aggregate_perm {gs gs' : List Geometry} (p : gs.Perm gs') :
    aggregate gs = aggregate gs' := by
  have h1 : pyMin (gs.map fun g => g.bounds.1)
      = pyMin (gs'.map fun g => g.bounds.1) := pyMin_perm (p.map _)
  have h2 : pyMin (gs.map fun g => g.bounds.2.1)
      = pyMin (gs'.map fun g => g.bounds.2.1) := pyMin_perm (p.map _)
  have h3 : pyMax (gs.map fun g => g.bounds.2.2.1)
      = pyMax (gs'.map fun g => g.bounds.2.2.1) := pyMax_perm (p.map _)
  have h4 : pyMax (gs.map fun g => g.bounds.2.2.2)
      = pyMax (gs'.map fun g => g.bounds.2.2.2) := pyMax_perm (p.map _)
  have h5 : pySum (gs.map fun g => g.centroid.1)
      = pySum (gs'.map fun g => g.centroid.1) := pySum_perm (p.map _)
  have h6 : pySum (gs.map fun g => g.centroid.2)
      = pySum (gs'.map fun g => g.centroid.2) := pySum_perm (p.map _)
  have h7 : (gs.length : ℚ) = (gs'.length : ℚ) := by rw [p.length_eq]
  simp only [aggregate, h1, h2, h3, h4, h5, h6, h7]

/-- C2: for every non-empty sequence of geometries, the aggregated bounding
box is the union box — each side is the minimum (resp. maximum) of the
corresponding per-geometry bounds — and the aggregation result does not depend
on the order of the input sequence. -/
theorem claim_C2 (gs : List Geometry) (hne : gs ≠ []) :
    ∃ bb cen, aggregate gs = .ok (bb, cen) ∧
      isMinOf bb.1 (gs.map fun g => g.bounds.1) ∧
      isMinOf bb.2.1 (gs.map fun g => g.bounds.2.1) ∧
      isMaxOf bb.2.2.1 (gs.map fun g => g.bounds.2.2.1) ∧
      isMaxOf bb.2.2.2 (gs.map fun g => g.bounds.2.2.2) ∧
      ∀ gs', gs.Perm gs' → aggregate gs' = .ok (bb, cen) := by
  obtain ⟨mnx, mny, mxx, mxy, h1, h2, h3, h4, hagg⟩ := aggregate_ok gs hne
  exact ⟨(mnx, mny, mxx, mxy), _, hagg,
    pyMin_ok h1, pyMin_ok h2, pyMax_ok h3, pyMax_ok h4,
    fun gs' p => (aggregate_perm p).symm.trans hagg⟩

/-- Witness for C2 at a concrete two-geometry input. -/
theorem claim_C2_witness :
    ∃ bb cen,
      aggregate sampleGeoms = .ok (bb, cen) ∧
      isMinOf bb.1 (sampleGeoms.map fun g => g.bounds.1) ∧
      isMinOf bb.2.1 (sampleGeoms.map fun g => g.bounds.2.1) ∧
      isMaxOf bb.2.2.1 (sampleGeoms.map fun g => g.bounds.2.2.1) ∧
      isMaxOf bb.2.2.2 (sampleGeoms.map fun g => g.bounds.2.2.2) ∧
      ∀ gs', sampleGeoms.Perm gs' → aggregate gs' = .ok (bb, cen) :=
  claim_C2 sampleGeoms (by simp [sampleGeoms])

/-- C3: the aggregated centroid is the unweighted arithmetic mean of the
per-geometry centroids, and on geometries with centroids (1,1), (3,3), (5,5)
it is (3,3). -/
theorem claim_C3 :
    (∀ gs : List Geometry, gs ≠ [] →
      ∃ bb cen, aggregate gs = .ok (bb, cen) ∧
        cen.1 = (gs.map fun g => g.centroid.1).sum / (gs.length : ℚ) ∧
        cen.2 = (gs.map fun g => g.centroid.2).sum / (gs.length : ℚ)) ∧
    aggregate [⟨(1, 1, 1, 1), (1, 1)⟩, ⟨(3, 3, 3, 3), (3, 3)⟩, ⟨(5, 5, 5, 5), (5, 5)⟩]
      = .ok ((1, 1, 5, 5), (3, 3)) := by
  constructor
  · intro gs hne
    obtain ⟨mnx, mny, mxx, mxy, _, _, _, _, hagg⟩ := aggregate_ok gs hne
    refine ⟨(mnx, mny, mxx, mxy), _, hagg, ?_, ?_⟩ <;> simp [pySum_eq_sum]
  · simp only [aggregate, pyMin, pyMax, pySum, pyDiv, List.map, List.foldl, List.length]
    norm_num [min_def, max_def, Except.bind]
    rfl

/-- Witness for C3: its universal part applied at a one-geometry input. -/
theorem claim_C3_witness :
    ∃ bb cen, aggregate sampleGeom1 = .ok (bb, cen) ∧
      cen.1 = (sampleGeom1.map fun g => g.centroid.1).sum / (sampleGeom1.length : ℚ) ∧
      cen.2 = (sampleGeom1.map fun g => g.centroid.2).sum / (sampleGeom1.length : ℚ) :=
  claim_C3.1 sampleGeom1 (by simp [sampleGeom1])

/-- C4: the code evaluated at the empty feature list.  The aggregation does
not fail with an `EmptyInputError` guard: it stops with the unguarded
`ValueError` that Python `min()` raises on an empty sequence (before the
division by the zero length is even reached). -/
theorem claim_C4 : aggregate [] = .error .valueError := rfl

/-! ## Helper lemmas for the zoom formula -/

theorem get_zoom_level_def (minx miny maxx maxy w h : ℝ) :
    get_zoom_level (minx, miny, maxx, maxy) w h =
      min (-1 * ((maxx - minx) / w) / (2 * Real.pi) * 360 / Real.log 2)
          (-1 * ((maxy - miny) / h) / (2 * Real.pi) * 360 / Real.log 2) := rfl

theorem log_two_pos : (0 : ℝ) < Real.log 2 := Real.log_pos (by norm_num)

theorem zoomConst_pos : (0 : ℝ) < 180 / (Real.pi * Real.log 2) :=
  div_pos (by norm_num) (mul_pos Real.pi_pos log_two_pos)

theorem zoom_term_eq (d w : ℝ) :
    -1 * (d / w) / (2 * Real.pi) * 360 / Real.log 2
      = -(d / w * (180 / (Real.pi * Real.log 2))) := by
  have hπ := Real.pi_ne_zero
  have hL := log_two_pos.ne'
  field_simp
  ring

theorem zoom_term_nonpos {d w : ℝ} (hd : 0 ≤ d) (hw : 0 < w) :
    -1 * (d / w) / (2 * Real.pi) * 360 / Real.log 2 ≤ 0 := by
  rw [zoom_term_eq]
  have h1 : 0 ≤ d / w * (180 / (Real.pi * Real.log 2)) :=
    mul_nonneg (div_nonneg hd hw.le) zoomConst_pos.le
  linarith

theorem zoom_term_mono {d d' w : ℝ} (hw : 0 < w) (h : d ≤ d') :
    -1 * (d' / w) / (2 * Real.pi) * 360 / Real.log 2
      ≤ -1 * (d / w) / (2 * Real.pi) * 360 / Real.log 2 := by
  rw [zoom_term_eq, zoom_term_eq]
  have h1 : d / w ≤ d' / w := (div_le_div_iff_of_pos_right hw).mpr h
  have h2 : d / w * (180 / (Real.pi * Real.log 2))
      ≤ d' / w * (180 / (Real.pi * Real.log 2)) :=
    mul_le_mul_of_nonneg_right h1 zoomConst_pos.le
  linarith

/-- C1: `get_zoom_level` returns the minimum of the two per-axis zooms given
by the spec formula; on bounds (0,0,10,10) with a 500 x 500 surface it equals
the formula value exactly (hence to any tolerance), which is within 1/1000 of
-1.654; and for a box twice as wide as tall on equal pixel dimensions the
returned zoom is the x-axis zoom. -/
theorem claim_C1 :
    (∀ minx miny maxx maxy w h : ℝ,
      get_zoom_level (minx, miny, maxx, maxy) w h =
        min ((-((maxx - minx) / w)) / (2 * Real.pi) * 360 / Real.log 2)
            ((-((maxy - miny) / h)) / (2 * Real.pi) * 360 / Real.log 2)) ∧
    get_zoom_level (0, 0, 10, 10) 500 500
      = (-((10 : ℝ) / 500)) / (2 * Real.pi) * 360 / Real.log 2 ∧
    |get_zoom_level (0, 0, 10, 10) 500 500 + 1.654| < 1 / 1000 ∧
    (∀ minx miny maxx maxy w : ℝ, 0 < w → 0 ≤ maxy - miny →
      maxx - minx = 2 * (maxy - miny) →
      get_zoom_level (minx, miny, maxx, maxy) w w =
        (-((maxx - minx) / w)) / (2 * Real.pi) * 360 / Real.log 2) := by
  have hform : ∀ a b : ℝ, -1 * (a / b) / (2 * Real.pi) * 360 / Real.log 2
      = (-(a / b)) / (2 * Real.pi) * 360 / Real.log 2 := by
    intro a b
    ring
  refine ⟨?_, ?_, ?_, ?_⟩
  · intro minx miny maxx maxy w h
    rw [get_zoom_level_def, hform, hform]
  · rw [get_zoom_level_def, min_self]
    norm_num
  · have h2 : get_zoom_level (0, 0, 10, 10) 500 500
        = -(3.6 / (Real.pi * Real.log 2)) := by
      rw [get_zoom_level_def, min_self, zoom_term_eq]
      have hπ := Real.pi_ne_zero
      have hL := log_two_pos.ne'
      field_simp
      ring
    rw [h2]
    have hπ₁ := Real.pi_gt_d6
    have hπ₂ := Real.pi_lt_d6
    have hL₁ := Real.log_two_gt_d9
    have hL₂ := Real.log_two_lt_d9
    have hpos : (0 : ℝ) < Real.pi * Real.log 2 := mul_pos Real.pi_pos log_two_pos
    have hPL₁ : (2.1775 : ℝ) < Real.pi * Real.log 2 := by
      nlinarith [Real.pi_pos, log_two_pos]
    have hPL₂ : Real.pi * Real.log 2 < 2.1776 := by
      nlinarith [Real.pi_pos, log_two_pos]
    have hub : (3.6 : ℝ) / (Real.pi * Real.log 2) < 3.6 / 2.1775 :=
      div_lt_div_of_pos_left (by norm_num) (by norm_num) hPL₁
    have hlb : (3.6 : ℝ) / 2.1776 < 3.6 / (Real.pi * Real.log 2) :=
      div_lt_div_of_pos_left (by norm_num) hpos hPL₂
    have e1 : (3.6 : ℝ) / 2.1775 < 1.6533 := by norm_num
    have e2 : (1.6531 : ℝ) < 3.6 / 2.1776 := by norm_num
    rw [abs_lt]
    constructor <;> linarith
  · intro minx miny maxx maxy w hw hd heq
    rw [get_zoom_level_def]
    have hle : maxy - miny ≤ maxx - minx := by linarith [heq]
    have hmin := @zoom_term_mono (maxy - miny) (maxx - minx) w hw hle
    rw [min_eq_left hmin, hform]

/-- Witness for C1: its universal parts applied at concrete inputs, with the
hypotheses of the twice-as-wide part discharged at bounds (0,0,2,1). -/
theorem claim_C1_witness :
    get_zoom_level ((0 : ℝ), 0, 2, 1) 500 500
      = (-(((2 : ℝ) - 0) / 500)) / (2 * Real.pi) * 360 / Real.log 2 :=
  claim_C1.2.2.2 0 0 2 1 500 (by norm_num) (by norm_num) (by norm_num)

/-- C7: for a nondegenerate bounding box and positive pixel dimensions the
returned zoom is at most 0. -/
theorem claim_C7 (minx miny maxx maxy w h : ℝ) (hx : minx ≤ maxx)
    (hy : miny ≤ maxy) (hw : 0 < w) (hh : 0 < h) :
    get_zoom_level (minx, miny, maxx, maxy) w h ≤ 0 := by
  rw [get_zoom_level_def]
  exact le_trans (min_le_left _ _)
    (@zoom_term_nonpos (maxx - minx) w (by linarith) hw)

/-- Witness for C7 at bounds (0,0,10,10) and a 500 x 500 surface. -/
theorem claim_C7_witness : get_zoom_level ((0 : ℝ), 0, 10, 10) 500 500 ≤ 0 :=
  claim_C7 0 0 10 10 500 500 (by norm_num) (by norm_num) (by norm_num) (by norm_num)

theorem exceptBind_ok {ε α β : Type} (a : α) (f : α → Except ε β) :
    (Except.ok a : Except ε α) >>= f = f a := rfl

theorem exceptBind_error {ε α β : Type} (e : ε) (f : α → Except ε β) :
    (Except.error e : Except ε α) >>= f = .error e := rfl

theorem exceptMap_ok {ε α β : Type} (a : α) (f : α → β) :
    f <$> (Except.ok a : Except ε α) = .ok (f a) := rfl

theorem exceptMap_error {ε α β : Type} (e : ε) (f : α → β) :
    f <$> (Except.error e : Except ε α) = .error e := rfl

/-- C6 counterexample: at bounds (0,0,0,10) with width = height = 500 the
x-span is 0 and width and height are positive, yet the result is strictly
negative, not 0 — so a zero `xdiff` alone does not force a zero zoom. -/
theorem claim_C6_cex :
    (0 : ℝ) < 500 ∧ ((0 : ℝ) - 0 = 0) ∧
    get_zoom_level ((0 : ℝ), 0, 0, 10) 500 500 ≠ 0 := by
  refine ⟨by norm_num, by norm_num, ?_⟩
  have hneg : -1 * (((10 : ℝ) - 0) / 500) / (2 * Real.pi) * 360 / Real.log 2 < 0 := by
    rw [zoom_term_eq]
    have h1 : 0 < (((10 : ℝ) - 0) / 500) * (180 / (Real.pi * Real.log 2)) :=
      mul_pos (by norm_num) zoomConst_pos
    linarith
  have : get_zoom_level ((0 : ℝ), 0, 0, 10) 500 500 < 0 := by
    rw [get_zoom_level_def]
    exact lt_of_le_of_lt (min_le_right _ _) hneg
  exact ne_of_lt this

/-- C6 (amended): when BOTH spans are 0 and width and height are nonzero the
result is zoom = 0; and whenever width or height is 0 the computation raises
an unguarded division-by-zero error (there is no `DegenerateBoundsError` or
clamping in the source). -/
theorem claim_C6 :
    (∀ minx miny maxx maxy w h : ℝ, w ≠ 0 → h ≠ 0 →
      maxx - minx = 0 → maxy - miny = 0 →
      get_zoom_levelE (minx, miny, maxx, maxy) w h = .ok 0) ∧
    (∀ bounds : ℝ × ℝ × ℝ × ℝ, ∀ h : ℝ,
      get_zoom_levelE bounds 0 h = .error .zeroDivisionError) ∧
    (∀ bounds : ℝ × ℝ × ℝ × ℝ, ∀ w : ℝ,
      get_zoom_levelE bounds w 0 = .error .zeroDivisionError) := by
  have h2π : (2 : ℝ) * Real.pi ≠ 0 := by positivity
  have hL : Real.log 2 ≠ 0 := log_two_pos.ne'
  have hπ := Real.pi_ne_zero
  have h21 : (2 : ℝ) ≠ -1 := by norm_num
  refine ⟨?_, ?_, ?_⟩
  · intro minx miny maxx maxy w h hw hh hx hy
    simp [get_zoom_levelE, pyDivR, hw, hh, h2π, hL, hπ, h21, hx, hy,
      exceptBind_ok, exceptBind_error, exceptMap_ok, exceptMap_error]
  · intro bounds h
    simp [get_zoom_levelE, pyDivR, hπ, h21,
      exceptBind_ok, exceptBind_error, exceptMap_ok, exceptMap_error]
  · intro bounds w
    by_cases hw : w = 0
    · simp [get_zoom_levelE, pyDivR, hw, hπ, h21,
        exceptBind_ok, exceptBind_error, exceptMap_ok, exceptMap_error]
    · simp [get_zoom_levelE, pyDivR, hw, h2π, hL, hπ, h21,
        exceptBind_ok, exceptBind_error, exceptMap_ok, exceptMap_error]

/-- Witness for C6: the both-spans-zero part applied at the point bounds
(5,5,5,5) with a 500 x 500 surface. -/
theorem claim_C6_witness :
    get_zoom_levelE ((5 : ℝ), 5, 5, 5) 500 500 = .ok 0 :=
  claim_C6.1 5 5 5 5 500 500 (by norm_num) (by norm_num) (by norm_num) (by norm_num)

/-- C5: the call site of `create_map` passes the four boolean flags
positionally in an order that does not match the function signature, so the
layer field `extruded` receives the `--stroked` flag, `stroked` receives
`--filled`, `filled` receives `--wireframe`, and `wireframe` receives
`--extruded`; in particular there are argument values on which every one of
the four layer fields differs from its same-named flag. -/
theorem claim_C5 :
    (∀ a : Args,
      (mainLayer a).extruded = a.stroked ∧
      (mainLayer a).stroked = a.filled ∧
      (mainLayer a).filled = a.wireframe ∧
      (mainLayer a).wireframe = a.extruded) ∧
    (∃ a : Args,
      (mainLayer a).stroked ≠ a.stroked ∧
      (mainLayer a).filled ≠ a.filled ∧
      (mainLayer a).wireframe ≠ a.wireframe ∧
      (mainLayer a).extruded ≠ a.extruded) := by
  constructor
  · intro a
    exact ⟨rfl, rfl, rfl, rfl⟩
  · refine ⟨⟨"input.geojson", "elevation", none, 1, [255, 0, 0], [0, 0, 255],
      true, true, false, true, false, true, 1, 45, 0, "output.html"⟩,
      ?_, ?_, ?_, ?_⟩ <;> simp [mainLayer, createMapLayer]

theorem mem_collectKeys {k : String} {fs : List Feature} :
    k ∈ collectKeys fs ↔ ∃ f ∈ fs, k ∈ f.properties.map Prod.fst := by
  induction fs with
  | nil => simp [collectKeys]
  | cons f fs ih => simp [collectKeys, ih]

/-- C8: the property listing is exactly the union of the per-feature property
key sets — sorted ascending, without duplicates, a feature with no properties
contributing nothing — and on the two-feature example with keys a,b and b,c it
is ["a","b","c"], while an empty feature sequence gives an empty listing. -/
theorem claim_C8 :
    (∀ fs : List Feature, (sortedProps fs).Sorted (· ≤ ·)) ∧
    (∀ fs : List Feature, (sortedProps fs).Nodup) ∧
    (∀ (fs : List Feature) (k : String),
      k ∈ sortedProps fs ↔ ∃ f ∈ fs, k ∈ f.properties.map Prod.fst) ∧
    (∀ (fs : List Feature) (f : Feature), f.properties = [] →
      sortedProps (f :: fs) = sortedProps fs) ∧
    sortedProps [⟨[("a", 1), ("b", 2)]⟩, ⟨[("b", 3), ("c", 4)]⟩] = ["a", "b", "c"] ∧
    sortedProps [] = [] := by
  refine ⟨?_, ?_, ?_, ?_, ?_, rfl⟩
  · intro fs
    exact List.sorted_insertionSort (· ≤ ·) (collectKeys fs).dedup
  · intro fs
    exact (List.perm_insertionSort (· ≤ ·) (collectKeys fs).dedup).nodup_iff.mpr
      (collectKeys fs).nodup_dedup
  · intro fs k
    rw [sortedProps,
      (List.perm_insertionSort (· ≤ ·) (collectKeys fs).dedup).mem_iff,
      List.mem_dedup]
    exact mem_collectKeys
  · intro fs f h
    simp [sortedProps, collectKeys, h]
  · have hab : ("a" : String) ≤ "b" := String.le_iff_toList_le.mpr (by decide)
    have hbc : ("b" : String) ≤ "c" := String.le_iff_toList_le.mpr (by decide)
    have hd : (collectKeys [⟨[("a", 1), ("b", 2)]⟩, ⟨[("b", 3), ("c", 4)]⟩]).dedup
        = ["a", "b", "c"] := by decide
    rw [sortedProps, hd]
    simp only [List.insertionSort, List.orderedInsert]
    rw [if_pos hbc]
    simp only [List.orderedInsert]
    rw [if_pos hab]

/-- Witness for C8: the no-properties part applied to a concrete feature with
an empty property mapping. -/
theorem claim_C8_witness :
    sortedProps [(⟨[]⟩ : Feature)] = sortedProps [] :=
  claim_C8.2.2.2.1 [] ⟨[]⟩ rfl

/-- C9: the property-inspector CLI prints the header line and one prefixed
line per sorted property name when the properties flag is given, and prints
nothing at all when the flag is omitted. -/
theorem claim_C9 :
    (∀ fs : List Feature, mainOut true fs
      = "Available properties:" :: (sortedProps fs).map (fun p => "  - " ++ p)) ∧
    (∀ fs : List Feature, mainOut false fs = []) :=
  ⟨fun _ => rfl, fun _ => rfl⟩

/-- C10: aggregation, zoom estimation, and their composition are deterministic
pure functions of their input: two runs on equal inputs produce equal bounding
boxes, centroids and zooms. -/
theorem claim_C10 :
    ∀ (gs gs' : List Geometry) (b b' : ℝ × ℝ × ℝ × ℝ) (w w' h h' : ℝ),
      gs = gs' → b = b' → w = w' → h = h' →
      aggregate gs = aggregate gs' ∧
      get_zoom_level b w h = get_zoom_level b' w' h' ∧
      pipeline gs = pipeline gs' := by
  rintro gs gs' b b' w w' h h' rfl rfl rfl rfl
  exact ⟨rfl, rfl, rfl⟩

/-- Witness for C10: two identical runs on a concrete input coincide. -/
theorem claim_C10_witness :
    aggregate sampleGeoms = aggregate sampleGeoms ∧
    get_zoom_level ((0 : ℝ), 0, 10, 10) 500 500
      = get_zoom_level ((0 : ℝ), 0, 10, 10) 500 500 ∧
    pipeline sampleGeoms = pipeline sampleGeoms :=
  claim_C10 sampleGeoms sampleGeoms ((0 : ℝ), 0, 10, 10) ((0 : ℝ), 0, 10, 10)
    500 500 500 500 rfl rfl rfl rfl

end PyDeck
